import Mathlib

/-!
Verification of the string-match retriever agent
(`parlai/agents/ir_baseline/ir_retrieve.py`).

The Python class `StringMatchRetrieverAgent` is shallowly embedded as a pure
state-passing model.  External collaborators are parameters of the state:

* the tokenizer (`drqa` tokenizer) is an opaque function `tokenize : String → List String`;
* the floating-point logarithm (`np.log`) is an opaque function `lg : ℚ → ℚ`
  (numeric entries are idealized as rationals, with `np.log` abstract);
* the sqlite fact store is a `facts` association list plus a `store_fails`
  flag modelling an unreachable / failing store;
* the shared fact-id counter (`multiprocessing.Value`) is a plain `Nat`
  (its lock only serializes the read-increment which is explicit here);
* each method that can raise is modelled with `Except`, carrying the
  post-exception state on the error path.

Sparse scipy matrices are represented by their construction data: a
`CMat` keeps the shape and the COO triples it was built from, and its
entry function sums duplicates exactly as `sum_duplicates` does.
-/

namespace IRRetrieve

/-- Argument accepted by `token2id` in the Python code: either an already
resolved integer id or a token string (dynamic `isinstance(token, int)`
dispatch). -/
inductive TokArg where
  | i (n : Int)
  | s (tok : String)

/-- Sparse count matrix as built by `_compute_count_matrix`: shape
`(T, F)` together with the COO triples `(token_id, fact_id, count)` the
`scipy.sparse.csr_matrix` was constructed from. -/
structure CMat where
  T : Nat
  F : Nat
  src : List (Int × Nat × Nat)
deriving Repr, DecidableEq

/-- One step of the COO-to-matrix accumulation: add a triple's count at
its coordinate (this is how duplicate coordinates get summed, mirroring
`csr_matrix(...)` followed by `sum_duplicates()`). -/
def addTriple (m : Int → Nat → Nat) (tr : Int × Nat × Nat) : Int → Nat → Nat :=
  fun t f => if t = tr.1 ∧ f = tr.2.1 then m t f + tr.2.2 else m t f

/-- Matrix entries determined by a COO triple list, duplicates summed. -/
def buildCountMatrix (src : List (Int × Nat × Nat)) : Int → Nat → Nat :=
  src.foldl addTriple (fun _ _ => 0)

/-- Entry of the count matrix at a coordinate. -/
def CMat.entry (m : CMat) (t : Int) (f : Nat) : Nat :=
  buildCountMatrix m.src t f

/-- Structural (stored) pattern of the sparse matrix: a cell is stored iff
some triple hits the coordinate. -/
def structEntry (src : List (Int × Nat × Nat)) (t : Int) (f : Nat) : Bool :=
  src.any (fun tr => tr.1 = t ∧ tr.2.1 = f)

/-- Cached TF-IDF data of `_compute_tfidf_from_count_matrix`: the count
matrix it was derived from together with the document-frequency vector
used for the idf diagonal. -/
structure TMat where
  base : CMat
  dfs : List Nat
deriving Repr, DecidableEq

/-- Full mutable state of a `StringMatchRetrieverAgent` instance. -/
structure Agent where
  /-- External tokenizer (`self.tokenize`), opaque. -/
  tokenize : String → List String
  /-- External floating point logarithm (`np.log`), opaque. -/
  lg : ℚ → ℚ
  /-- `self.all_tokens`: insertion-ordered token-to-id dict. -/
  all_tokens : List (String × Nat)
  /-- `self.freq_token` triple buffer component. -/
  freq_token : List Int
  /-- `self.freq_fact_id` triple buffer component. -/
  freq_fact_id : List Nat
  /-- `self.freq_freq` triple buffer component. -/
  freq_freq : List Nat
  /-- Value of the shared fact-id counter `self.fact_id`. -/
  fact_id : Nat
  /-- Whether the shared db write lock is currently held. -/
  db_lock : Bool
  /-- Whether the external fact store raises on insert. -/
  store_fails : Bool
  /-- Rows of the sqlite `document` table. -/
  facts : List (Nat × String)
  /-- Cached `self.count_matrix` when the attribute exists. -/
  count_matrix : Option CMat
  /-- Cached `self.tfidfs` when the attribute exists. -/
  tfidfs : Option TMat
  /-- Cached `self.doc_freqs` when the attribute exists. -/
  doc_freqs : Option (List Nat)
  /-- Cached `self.num_docs` when the attribute exists. -/
  num_docs : Option Nat
  /-- Cached `self.num_tokens` when the attribute exists. -/
  num_tokens : Option Nat
  /-- Processed-example counter `self.cnt`. -/
  cnt : Nat

/-- Python `token2id`: an integer argument is returned unchanged; a string
is looked up in `all_tokens`, interning it with id `len(all_tokens)` when
absent. -/
def token2id (a : Agent) (t : TokArg) : Int × Agent :=
  match t with
  | .i n => (n, a)
  | .s tok =>
    match a.all_tokens.lookup tok with
    | some id => ((id : Int), a)
    | none =>
      let id := a.all_tokens.length
      ((id : Int), { a with all_tokens := a.all_tokens ++ [(tok, id)] })

/-- Well-formedness of the vocabulary: ids are the dense range
`0..size-1` listed in first-seen (insertion) order. -/
def VocabWF (a : Agent) : Prop :=
  a.all_tokens.map Prod.snd = List.range a.all_tokens.length

/-- Python `new_fact_id`: atomically read the shared counter, increment it
and return the pre-increment value (the `get_lock` critical section). -/
def new_fact_id (a : Agent) : Nat × Agent :=
  (a.fact_id, { a with fact_id := a.fact_id + 1 })

/-- Python `insert_fact_without_id`: allocate a fact id, then insert the
row into the store under the shared write lock.  The two nested `with`
blocks release the lock on every exit path, including when the insert
raises; the error branch carries the post-exception state. -/
def insert_fact_without_id (a : Agent) (fact : String) : Except Agent (Nat × Agent) :=
  let p := new_fact_id a
  let a1 := { p.2 with db_lock := true }
  if a.store_fails then
    .error { a1 with db_lock := false }
  else
    .ok (p.1, { a1 with facts := a1.facts ++ [(p.1, fact)], db_lock := false })

/-- Python `new_freq`: resolve the token through `token2id` and append
the `(token_id, fact_id, freq)` triple to the three parallel buffers. -/
def new_freq (a : Agent) (t : TokArg) (fid : Nat) (freq : Nat) : Agent :=
  let p := token2id a t
  { p.2 with
    freq_token := p.2.freq_token ++ [p.1]
    freq_fact_id := p.2.freq_fact_id ++ [fid]
    freq_freq := p.2.freq_freq ++ [freq] }

/-- Behaviour of `np.unique(..., return_counts=True)` on a list of
strings: the distinct values in sorted order, each with its number of
occurrences. -/
def uniqueCounts (l : List String) : List (String × Nat) :=
  (List.insertionSort (· ≤ ·) l.dedup).map (fun t => (t, l.count t))

/-- Python `process_act`: persist the fact first (aborting with no other
side effect if the store insert raises), then tokenize it and append one
triple per distinct token. -/
def process_act (a : Agent) (fact : String) : Except Agent Agent :=
  match insert_fact_without_id a fact with
  | .error a1 => .error a1
  | .ok (fid, a1) =>
    .ok ((uniqueCounts (a1.tokenize fact)).foldl
          (fun acc tc => new_freq acc (.s tc.1) fid tc.2) a1)

/-- Python `act`: drop the cached derived matrices, but only when the
`tfidfs` attribute exists; then ingest the observation text (if any). -/
def act (a : Agent) (obsText : Option String) : Except Agent Agent :=
  let a1 :=
    if a.tfidfs.isSome then
      { a with tfidfs := none, count_matrix := none, doc_freqs := none,
               num_docs := none, num_tokens := none }
    else a
  match obsText with
  | none => .ok a1
  | some t => process_act { a1 with cnt := a1.cnt + 1 } t

/-- Result state of an `act` call whether it returned or raised. -/
def actOut : Except Agent Agent → Agent
  | .ok a => a
  | .error a => a

/-- The triple list currently held in the three parallel buffers. -/
def currentTriples (a : Agent) : List (Int × Nat × Nat) :=
  a.freq_token.zip (a.freq_fact_id.zip a.freq_freq)

/-- Python `get_num_docs`: the shared counter value, memoized in the
`num_docs` attribute. -/
def get_num_docs (a : Agent) : Nat × Agent :=
  match a.num_docs with
  | some n => (n, a)
  | none => (a.fact_id, { a with num_docs := some a.fact_id })

/-- Python `get_num_tokens`: the vocabulary size, memoized in the
`num_tokens` attribute. -/
def get_num_tokens (a : Agent) : Nat × Agent :=
  match a.num_tokens with
  | some n => (n, a)
  | none => (a.all_tokens.length, { a with num_tokens := some a.all_tokens.length })

/-- Python `_compute_count_matrix`: when no cached matrix exists, build
the sparse matrix of shape `(num_tokens, num_docs)` from the triple
buffers (duplicates summed) and cache it; otherwise return the cache. -/
def compute_count_matrix (a : Agent) : CMat × Agent :=
  match a.count_matrix with
  | some m => (m, a)
  | none =>
    let p1 := get_num_tokens a
    let p2 := get_num_docs p1.2
    let m : CMat := ⟨p1.1, p2.1, currentTriples p2.2⟩
    (m, { p2.2 with count_matrix := some m })

/-- Document-frequency vector of a count matrix, as computed by
`get_doc_freqs`: one entry per token row, counting the fact columns with
a positive count (binary presence). -/
def docFreqsOf (m : CMat) : List Nat :=
  (List.range m.T).map
    (fun t => ((List.range m.F).filter (fun f => 0 < m.entry (Int.ofNat t) f)).length)

/-- Python `get_doc_freqs`: memoized in the `doc_freqs` attribute;
when the cache exists it is returned regardless of the argument. -/
def get_doc_freqs (a : Agent) (m : CMat) : List Nat × Agent :=
  match a.doc_freqs with
  | some d => (d, a)
  | none => (docFreqsOf m, { a with doc_freqs := some (docFreqsOf m) })

/-- Python `compute_tfidf` composed with
`_compute_tfidf_from_count_matrix`: ensure the count matrix, then (unless
already cached) record the document frequencies and cache the TF-IDF
data. -/
def compute_tfidf (a : Agent) : TMat × Agent :=
  let p := compute_count_matrix a
  match p.2.tfidfs with
  | some w => (w, p.2)
  | none =>
    let q := get_doc_freqs p.2 p.1
    let w : TMat := ⟨p.1, q.1⟩
    (w, { q.2 with tfidfs := some w })

/-- Python `save`: persists the token map and the matrix returned by
`_compute_count_matrix`; the in-memory effect is memoizing the count
matrix (and the sizes it reads). -/
def save (a : Agent) : Agent :=
  (compute_count_matrix a).2

/-- The clamp `idfs[idfs < 0] = 0` applied to one value. -/
def clampNeg (x : ℚ) : ℚ :=
  if x < 0 then 0 else x

/-- Inverse document frequency of a token with document frequency `df`
out of `F` facts: `log((F - df + 0.5) / (df + 0.5))` clamped at zero,
with `lg` standing for `np.log`. -/
def idfOf (lg : ℚ → ℚ) (F df : Nat) : ℚ :=
  clampNeg (lg (((F : ℚ) - (df : ℚ) + 1/2) / ((df : ℚ) + 1/2)))

/-- Term-frequency dampening `np.log1p(c)` with `lg` for `np.log`. -/
def tfOf (lg : ℚ → ℚ) (c : Nat) : ℚ :=
  lg (1 + (c : ℚ))

/-- Entry of the weighted TF-IDF matrix `diag(idfs) * count_matrix.log1p()`
on its stored pattern (the pattern of the count matrix). -/
def tmatEntry (lg : ℚ → ℚ) (w : TMat) (t : Int) (f : Nat) : ℚ :=
  if structEntry w.base.src t f then
    idfOf lg w.base.F (w.dfs.getD t.toNat 0) * tfOf lg (w.base.entry t f)
  else 0

/-- Descending-score order on scored facts: `a` may precede `b` when its
score is at least `b`'s. -/
def scoreGe (a b : Nat × ℚ) : Prop :=
  b.2 ≤ a.2

instance : DecidableRel scoreGe :=
  fun a b => inferInstanceAs (Decidable (b.2 ≤ a.2))

instance : IsTotal (Nat × ℚ) scoreGe :=
  ⟨fun a b => le_total b.2 a.2⟩

instance : IsTrans (Nat × ℚ) scoreGe :=
  ⟨fun _ _ _ hab hbc => le_trans hbc hab⟩

/-- Sort scored facts in descending score order (`np.argsort(-res.data)`). -/
def sortDescQ (l : List (Nat × ℚ)) : List (Nat × ℚ) :=
  List.insertionSort scoreGe l

/-- Top-k selection of `retrieve` (lines 139-145): when at most
`max_results` cells are stored, sort all of them descending; otherwise
select `max_results` highest-scoring cells (`np.argpartition`) and sort
that subset descending.  Any valid partition outcome agrees with the
first `k` cells of a full descending sort up to the choice among equal
scores, which is what this model takes. -/
def retrieveSelect (res : List (Nat × ℚ)) (k : Nat) : List (Nat × ℚ) :=
  if res.length ≤ k then sortDescQ res else (sortDescQ res).take k

/-- Boolean form of having a nonzero score. -/
def nzScore (p : Nat × ℚ) : Bool :=
  decide (p.2 ≠ 0)

/-- The query tokens surviving the vocabulary filter (line 119). -/
def queryTokens (a : Agent) (query : String) : List String :=
  (a.tokenize query).filter (fun t => (a.all_tokens.lookup t).isSome)

/-- Behaviour of `np.unique` on the integer id list: sorted distinct ids. -/
def uniqueInts (l : List Int) : List Int :=
  List.insertionSort (· ≤ ·) l.dedup

/-- Python `retrieve`: tokenize and filter the query, short-circuiting to
an empty yield when nothing survives; otherwise refresh the TF-IDF data,
build the one-row query vector of `tf * idf` weights, score every fact
column with stored overlap, select the top `max_results` cells and
resolve each fact id in the store (a missing row raises, modelled by the
error branch). -/
def retrieve (a : Agent) (query : String) (maxResults : Nat) :
    Except Unit (List String) × Agent :=
  let toks := queryTokens a query
  if toks.isEmpty then (.ok [], a)
  else
    let p := compute_tfidf a
    let w := p.1
    let st := toks.foldl
      (fun (acc : List Int × Agent) t =>
        let q := token2id acc.2 (.s t)
        (acc.1 ++ [q.1], q.2))
      ([], p.2)
    let wids := st.1
    let pF := get_num_docs st.2
    let a3 := pF.2
    let dfs := a3.doc_freqs.getD []
    let qval : Int → ℚ := fun t =>
      tfOf a3.lg (wids.count t) * idfOf a3.lg pF.1 (dfs.getD t.toNat 0)
    let uw := uniqueInts wids
    let res : List (Nat × ℚ) :=
      (List.range w.base.F).filterMap
        (fun f =>
          if uw.any (fun t => structEntry w.base.src t f) then
            some (f, (uw.map (fun t => qval t * tmatEntry a3.lg w t f)).sum)
          else none)
    let sel := retrieveSelect res maxResults
    let otexts := sel.foldr
      (fun pr acc =>
        match acc, a3.facts.lookup pr.1 with
        | some l, some t => some (t :: l)
        | _, _ => none)
      (some [])
    match otexts with
    | some l => (.ok l, a3)
    | none => (.error (), a3)

/-- Wire messages on a worker-to-master channel, following the dispatch
in `_process_data`: the end-of-data sentinel, a 2-element vocabulary
pair, a 3-element frequency triple, or any other (malformed) shape. -/
inductive ChildMsg where
  | eod
  | vocabPair (tok : String) (localId : Int)
  | triple (localId : Int) (factId : Nat) (freq : Nat)
  | malformed
deriving DecidableEq, Repr

/-- Errors `_process_data` can raise: a `KeyError` from looking up an
untranslated local token id, or the explicit wrong-format `RuntimeError`. -/
inductive MergeErr where
  | keyError
  | wrongFormat
deriving DecidableEq, Repr

/-- Dict assignment on an association list (overwrite or append). -/
def assocSet : List (Int × Nat) → Int → Nat → List (Int × Nat)
  | [], k, v => [(k, v)]
  | (a, b) :: t, k, v =>
    if a = k then (k, v) :: t else (a, b) :: assocSet t k v

/-- Master-side merge state: the master's own agent state plus the
per-queue translation tables, finished flags and the channels' currently
available (already buffered) messages. -/
structure MergeState where
  agent : Agent
  childMaps : List (List (Int × Nat))
  finished : List Bool
  finishedCnt : Nat
  queues : List (List ChildMsg)

/-- Body of Python `_process_data` applied to the message received from
queue `qi`: the sentinel marks the queue finished; a vocabulary pair is
interned globally and recorded in the queue's translation table; a
triple's local id is translated (raising `KeyError` when absent) and
appended via `new_freq`; anything else raises the wrong-format error. -/
def processData (s : MergeState) (qi : Nat) (msg : ChildMsg) :
    Except MergeErr MergeState :=
  match msg with
  | .eod =>
    .ok { s with finished := s.finished.set qi true, finishedCnt := s.finishedCnt + 1 }
  | .vocabPair tok lid =>
    let p := token2id s.agent (.s tok)
    .ok { s with
          agent := p.2,
          childMaps := s.childMaps.set qi (assocSet (s.childMaps.getD qi []) lid p.1.toNat) }
  | .triple lid fid fr =>
    match (s.childMaps.getD qi []).lookup lid with
    | none => .error .keyError
    | some gid => .ok { s with agent := new_freq s.agent (.i (gid : Int)) fid fr }
  | .malformed => .error .wrongFormat

/-- Outcome of one receive attempt or one polling round. -/
inductive StepResult where
  | done (s : MergeState)
  | blocked (qi : Nat) (s : MergeState)
  | failed (e : MergeErr) (s : MergeState)

/-- One call of `_process_data(queue_ind)`: return immediately when the
queue already finished; otherwise perform the channel receive.
`Queue.get()` has no timeout, so when the queue has no available message
the coordinator blocks on it — `blocked` marks that stuck configuration.
A raised error propagates as `failed`. -/
def processDataStep (s : MergeState) (qi : Nat) : StepResult :=
  if s.finished.getD qi true then .done s
  else
    match s.queues.getD qi [] with
    | [] => .blocked qi s
    | msg :: rest =>
      let s1 := { s with queues := s.queues.set qi rest }
      match processData s1 qi msg with
      | .ok s2 => .done s2
      | .error e => .failed e s1

/-- The inner `for queue_ind in range(num_queues)` loop, stopping at the
first blocking receive or raised error. -/
def runRound (s : MergeState) : List Nat → StepResult
  | [] => .done s
  | qi :: rest =>
    match processDataStep s qi with
    | .done s1 => runRound s1 rest
    | r => r

/-- One round of `process_child_data` over all channels in index order. -/
def processRound (s : MergeState) : StepResult :=
  runRound s (List.range s.queues.length)

/-- Python `process_child_data`: repeat rounds while some channel has not
signalled end-of-data (fuel bounds the recursion; a blocking receive or a
raised error ends the run as-is). -/
def process_child_data : Nat → MergeState → StepResult
  | 0, s => .done s
  | fuel + 1, s =>
    if s.finishedCnt = s.queues.length then .done s
    else
      match processRound s with
      | .done s1 => process_child_data fuel s1
      | r => r

/-- The five lazily cached attributes bundled: `count_matrix`, `tfidfs`,
`doc_freqs`, `num_docs`, `num_tokens`. -/
def cachesOf (a : Agent) :
    Option CMat × Option TMat × Option (List Nat) × Option Nat × Option Nat :=
  (a.count_matrix, a.tfidfs, a.doc_freqs, a.num_docs, a.num_tokens)

/-- A fresh agent with no prior saved artifacts: empty vocabulary and
buffers, fact counter at zero, healthy store, no cached matrices.  The
opaque externals are instantiated with a trivial tokenizer and a simple
rational stand-in for the logarithm. -/
def mkAgent : Agent where
  tokenize := fun s => [s]
  lg := fun x => x - 1
  all_tokens := []
  freq_token := []
  freq_fact_id := []
  freq_freq := []
  fact_id := 0
  db_lock := false
  store_fails := false
  facts := []
  count_matrix := none
  tfidfs := none
  doc_freqs := none
  num_docs := none
  num_tokens := none
  cnt := 0

/-- Concrete run for the cache-staleness scenario: ingest one fact,
save (which caches the count matrix without ever computing `tfidfs`),
then ingest a second fact. -/
def staleA1 : Agent := actOut (act mkAgent (some "a"))

/-- State after `save` has cached the one-fact count matrix. -/
def staleA2 : Agent := save staleA1

/-- State after the second ingestion, performed while only the count
matrix (not the TF-IDF matrix) was cached. -/
def staleA3 : Agent := actOut (act staleA2 (some "b"))

/-- Concrete agent with two buffered triples at the same coordinate. -/
def c1Agent : Agent :=
  { mkAgent with freq_token := [0, 0], freq_fact_id := [0, 0], freq_freq := [2, 3], fact_id := 1 }

/-- Concrete count matrix with two token rows and one fact column whose
second token occurs in no fact. -/
def c4M : CMat := ⟨2, 1, [((0 : Int), 0, 1)]⟩

/-- Concrete merge configuration: two unfinished channels, the first
(slow worker) with no available message, the second with a buffered
end-of-data sentinel. -/
def c9S : MergeState where
  agent := mkAgent
  childMaps := [[], []]
  finished := [false, false]
  finishedCnt := 0
  queues := [[], [ChildMsg.eod]]

/-- Concrete merge configuration whose only unfinished channel is empty. -/
def c9S2 : MergeState where
  agent := mkAgent
  childMaps := [[], []]
  finished := [true, false]
  finishedCnt := 1
  queues := [[ChildMsg.eod], []]

/-- Concrete agent whose vocabulary already holds one token. -/
def c8Agent : Agent :=
  { mkAgent with all_tokens := [("a", 0)] }

/-- Concrete agent whose store insert raises. -/
def c5Agent : Agent :=
  { mkAgent with store_fails := true, all_tokens := [("a", 0)],
                 freq_token := [0], freq_fact_id := [0], freq_freq := [1], fact_id := 1 }

/-- Concrete agent holding one vocabulary entry, used for the
out-of-vocabulary query. -/
def c7Agent : Agent :=
  { mkAgent with tokenize := fun _ => ["zzzqqq"], all_tokens := [("a", 0)] }

/-- Concrete merge state whose first channel buffers a triple that has no
translation entry. -/
def c6S : MergeState where
  agent := mkAgent
  childMaps := [[]]
  finished := [false]
  finishedCnt := 0
  queues := [[ChildMsg.triple 7 0 1]]

/-- Concrete TF-IDF cache value for the invalidation witness. -/
def c2W : TMat := ⟨⟨0, 0, []⟩, []⟩

/-- Concrete agent with a cached TF-IDF matrix (and the attributes that
always accompany it). -/
def c2Agent : Agent :=
  { mkAgent with tfidfs := some c2W, count_matrix := some c2W.base,
                 doc_freqs := some [], num_docs := some 0, num_tokens := some 0 }

/-! Helper lemmas about the COO accumulation and the cache-free paths. -/

theorem foldl_addTriple_apply (src : List (Int × Nat × Nat))
    (m : Int → Nat → Nat) (t : Int) (f : Nat) :
    src.foldl addTriple m t f =
      m t f +
        ((src.filter (fun tr => decide (t = tr.1 ∧ f = tr.2.1))).map
          (fun tr => tr.2.2)).sum := by
  induction src generalizing m with
  | nil => simp
  | cons tr rest ih =>
    rw [List.foldl_cons, ih]
    by_cases hc : t = tr.1 ∧ f = tr.2.1
    · have hpt : (fun tr2 : Int × Nat × Nat => decide (t = tr2.1 ∧ f = tr2.2.1)) tr = true := by
        simp [hc]
      rw [List.filter_cons, if_pos hpt, List.map_cons, List.sum_cons]
      simp only [addTriple]
      rw [if_pos hc]
      omega
    · have hpf : ¬((fun tr2 : Int × Nat × Nat => decide (t = tr2.1 ∧ f = tr2.2.1)) tr = true) := by
        simp [hc]
      rw [List.filter_cons, if_neg hpf]
      simp only [addTriple]
      rw [if_neg hc]

theorem buildCountMatrix_eq_sum (src : List (Int × Nat × Nat)) (t : Int) (f : Nat) :
    buildCountMatrix src t f =
      ((src.filter (fun tr => decide (t = tr.1 ∧ f = tr.2.1))).map
        (fun tr => tr.2.2)).sum := by
  unfold buildCountMatrix
  rw [foldl_addTriple_apply]
  omega

theorem currentTriples_get_num_tokens (a : Agent) :
    currentTriples (get_num_tokens a).2 = currentTriples a := by
  unfold get_num_tokens
  cases a.num_tokens <;> rfl

theorem currentTriples_get_num_docs (a : Agent) :
    currentTriples (get_num_docs a).2 = currentTriples a := by
  unfold get_num_docs
  cases a.num_docs <;> rfl

theorem compute_count_matrix_src (a : Agent) (h : a.count_matrix = none) :
    (compute_count_matrix a).1.src = currentTriples a := by
  unfold compute_count_matrix
  rw [h]
  show currentTriples (get_num_docs (get_num_tokens a).2).2 = currentTriples a
  rw [currentTriples_get_num_docs, currentTriples_get_num_tokens]

/-- C1: with no cached matrix, `_compute_count_matrix` builds the matrix
from the accumulated triple buffers; each cell equals the sum of the
counts of all triples with that coordinate pair (duplicates summed,
never overwritten), and — since accumulated counts are positive — a cell
is zero exactly when no triple has that coordinate. -/
theorem count_matrix_cell_is_sum (a : Agent) (t : Int) (f : Nat)
    (h : a.count_matrix = none) :
    (compute_count_matrix a).1.entry t f =
      (((currentTriples a).filter (fun tr => decide (t = tr.1 ∧ f = tr.2.1))).map
        (fun tr => tr.2.2)).sum
    ∧ ((∀ tr ∈ currentTriples a, 0 < tr.2.2) →
        ((compute_count_matrix a).1.entry t f = 0 ↔
          ∀ tr ∈ currentTriples a, ¬(t = tr.1 ∧ f = tr.2.1))) := by
  have hsrc := compute_count_matrix_src a h
  have hmain : (compute_count_matrix a).1.entry t f =
      (((currentTriples a).filter (fun tr => decide (t = tr.1 ∧ f = tr.2.1))).map
        (fun tr => tr.2.2)).sum := by
    rw [CMat.entry, hsrc, buildCountMatrix_eq_sum]
  refine ⟨hmain, fun hpos => ?_⟩
  rw [hmain]
  constructor
  · intro h0 tr htr hc
    have hmem : tr.2.2 ∈
        (((currentTriples a).filter (fun tr => decide (t = tr.1 ∧ f = tr.2.1))).map
          (fun tr => tr.2.2)) :=
      List.mem_map.mpr ⟨tr, List.mem_filter.mpr ⟨htr, by simpa using hc⟩, rfl⟩
    have h1 := List.sum_eq_zero_iff.mp h0 _ hmem
    have h2 := hpos tr htr
    omega
  · intro hnone
    have : ((currentTriples a).filter (fun tr => decide (t = tr.1 ∧ f = tr.2.1))) = [] :=
      List.filter_eq_nil_iff.mpr (fun tr htr => by simpa using hnone tr htr)
    rw [this]
    rfl

/-- Witness for C1 at a concrete buffer with a duplicate coordinate. -/
theorem count_matrix_cell_is_sum_witness :
    c1Agent.count_matrix = none
    ∧ (compute_count_matrix c1Agent).1.entry 0 0 =
        (((currentTriples c1Agent).filter
            (fun tr => decide ((0 : Int) = tr.1 ∧ 0 = tr.2.1))).map
          (fun tr => tr.2.2)).sum
    ∧ ((compute_count_matrix c1Agent).1.entry 1 0 = 0 ↔
        ∀ tr ∈ currentTriples c1Agent, ¬((1 : Int) = tr.1 ∧ 0 = tr.2.1)) :=
  ⟨rfl, (count_matrix_cell_is_sum c1Agent 0 0 rfl).1,
    (count_matrix_cell_is_sum c1Agent 1 0 rfl).2 (by decide)⟩

/-- C10 (implicit): `token2id` applied to an already-resolved integer id
returns it unchanged — for every integer, negative or at least the
vocabulary size alike — with no range or membership check, and leaves
the agent (in particular the vocabulary) unmodified. -/
theorem token2id_int_passthrough (a : Agent) (n : Int) :
    token2id a (.i n) = (n, a) ∧ (token2id a (.i n)).2.all_tokens = a.all_tokens :=
  ⟨rfl, rfl⟩

theorem lookup_append_single (l : List (String × Nat)) (tok : String) (v : Nat)
    (h : l.lookup tok = none) : (l ++ [(tok, v)]).lookup tok = some v := by
  induction l with
  | nil => simp [List.lookup]
  | cons p rest ih =>
    rw [List.cons_append, List.lookup]
    rw [List.lookup] at h
    cases hb : (tok == p.1) with
    | true => rw [hb] at h; simp at h
    | false => rw [hb] at h; exact ih h

/-- C8: interning a token string through `token2id` returns the recorded
id unchanged when present; otherwise it assigns `len(all_tokens)` as the
new id, records the mapping at the end of the dict, and returns it.  The
dense-first-seen-order invariant on ids is preserved, and the same token
maps to the same id on a repeated call. -/
theorem token2id_intern_spec (a : Agent) (tok : String) :
    (∀ id, a.all_tokens.lookup tok = some id → token2id a (.s tok) = ((id : Int), a))
    ∧ (a.all_tokens.lookup tok = none →
        token2id a (.s tok) =
          ((a.all_tokens.length : Int),
            { a with all_tokens := a.all_tokens ++ [(tok, a.all_tokens.length)] }))
    ∧ (VocabWF a → VocabWF (token2id a (.s tok)).2)
    ∧ (token2id (token2id a (.s tok)).2 (.s tok)).1 = (token2id a (.s tok)).1 := by
  refine ⟨?_, ?_, ?_, ?_⟩
  · intro id hid
    simp [token2id, hid]
  · intro hnone
    simp [token2id, hnone]
  · intro hwf
    cases hl : a.all_tokens.lookup tok with
    | some id =>
      have he : token2id a (.s tok) = ((id : Int), a) := by simp [token2id, hl]
      rw [he]
      exact hwf
    | none =>
      have he : token2id a (.s tok) =
          ((a.all_tokens.length : Int),
            { a with all_tokens := a.all_tokens ++ [(tok, a.all_tokens.length)] }) := by
        simp [token2id, hl]
      rw [he]
      unfold VocabWF at hwf ⊢
      simp only [List.map_append, List.length_append, List.map_cons, List.map_nil,
        List.length_cons, List.length_nil]
      rw [hwf, List.range_succ]
  · cases hl : a.all_tokens.lookup tok with
    | some id =>
      have he : token2id a (.s tok) = ((id : Int), a) := by simp [token2id, hl]
      rw [he]
      simp [token2id, hl]
    | none =>
      have he : token2id a (.s tok) =
          ((a.all_tokens.length : Int),
            { a with all_tokens := a.all_tokens ++ [(tok, a.all_tokens.length)] }) := by
        simp [token2id, hl]
      rw [he]
      simp [token2id, lookup_append_single a.all_tokens tok a.all_tokens.length hl]

/-- Witness for C8: interning a fresh token into a one-token vocabulary
assigns id 1 and appends the mapping; re-interning returns the same id. -/
theorem token2id_intern_spec_witness :
    token2id c8Agent (.s "b") =
      ((1 : Int), { c8Agent with all_tokens := [("a", 0), ("b", 1)] })
    ∧ (token2id (token2id c8Agent (.s "b")).2 (.s "b")).1 =
        (token2id c8Agent (.s "b")).1 := by
  have h := token2id_intern_spec c8Agent "b"
  exact ⟨h.2.1 rfl, h.2.2.2⟩

theorem cachesOf_token2id (a : Agent) (t : TokArg) :
    cachesOf (token2id a t).2 = cachesOf a := by
  cases t with
  | i n => rfl
  | s tok => cases hl : a.all_tokens.lookup tok <;> simp [token2id, hl, cachesOf]

theorem cachesOf_new_freq (a : Agent) (t : TokArg) (fid fr : Nat) :
    cachesOf (new_freq a t fid fr) = cachesOf a :=
  cachesOf_token2id a t

theorem cachesOf_foldl_new_freq (l : List (String × Nat)) (fid : Nat) (a : Agent) :
    cachesOf (l.foldl (fun acc tc => new_freq acc (.s tc.1) fid tc.2) a) = cachesOf a := by
  induction l generalizing a with
  | nil => rfl
  | cons tc rest ih => rw [List.foldl_cons, ih, cachesOf_new_freq]

theorem cachesOf_process_act (a : Agent) (fact : String) :
    cachesOf (actOut (process_act a fact)) = cachesOf a := by
  unfold process_act insert_fact_without_id new_fact_id
  by_cases h : a.store_fails
  · simp [h, actOut, cachesOf]
  · simp only [h, Bool.false_eq_true, if_false, actOut]
    rw [cachesOf_foldl_new_freq]
    rfl

theorem tfidfs_get_num_tokens (a : Agent) : (get_num_tokens a).2.tfidfs = a.tfidfs := by
  unfold get_num_tokens
  cases a.num_tokens <;> rfl

theorem tfidfs_get_num_docs (a : Agent) : (get_num_docs a).2.tfidfs = a.tfidfs := by
  unfold get_num_docs
  cases a.num_docs <;> rfl

theorem tfidfs_compute_count_matrix (a : Agent) :
    (compute_count_matrix a).2.tfidfs = a.tfidfs := by
  unfold compute_count_matrix
  cases hm : a.count_matrix with
  | some m => rfl
  | none =>
    show (get_num_docs (get_num_tokens a).2).2.tfidfs = a.tfidfs
    rw [tfidfs_get_num_docs, tfidfs_get_num_tokens]

theorem compute_tfidf_base_src (a : Agent) (hcm : a.count_matrix = none)
    (ht : a.tfidfs = none) :
    (compute_tfidf a).1.base.src = currentTriples a := by
  have h2 : (compute_count_matrix a).2.tfidfs = none := by
    rw [tfidfs_compute_count_matrix]
    exact ht
  simp only [compute_tfidf, h2]
  exact compute_count_matrix_src a hcm

/-- Counterexample to C2: ingest a fact, `save` (caching the count matrix
while `tfidfs` was never computed), ingest a second fact; the cached
matrix survives the second ingestion and the next
`_compute_count_matrix` — hence the next retrieve or save — reuses it,
although it omits the second fact (its cell for the new token and the
new fact is 0 while the up-to-date buffers give 1). -/
theorem stale_count_matrix_after_save_then_act :
    staleA3.tfidfs = none
    ∧ staleA3.count_matrix = some ⟨1, 1, [((0 : Int), 0, 1)]⟩
    ∧ staleA3.freq_fact_id = [0, 1]
    ∧ (compute_count_matrix staleA3).1.entry 1 1 = 0
    ∧ buildCountMatrix (currentTriples staleA3) 1 1 = 1 := by
  refine ⟨rfl, by decide, by decide, by decide, by decide⟩

/-- C2 amended: invalidation is keyed on the presence of the cached
TF-IDF matrix.  Whenever a TF-IDF matrix was cached, ingesting a fact
through `act` drops all five cached derived attributes, and the next
count-matrix or TF-IDF computation rebuilds from the full, up-to-date
triple buffers.  (When only the count matrix was cached — `save` with no
prior TF-IDF computation — ingestion does not invalidate it, per the
counterexample.) -/
theorem cache_invalidation_when_tfidfs_cached (a : Agent) (t : String)
    (h : a.tfidfs.isSome = true) :
    (actOut (act a (some t))).tfidfs = none
    ∧ (actOut (act a (some t))).count_matrix = none
    ∧ (actOut (act a (some t))).doc_freqs = none
    ∧ (actOut (act a (some t))).num_docs = none
    ∧ (actOut (act a (some t))).num_tokens = none
    ∧ (compute_count_matrix (actOut (act a (some t)))).1.src =
        currentTriples (actOut (act a (some t)))
    ∧ (compute_tfidf (actOut (act a (some t)))).1.base.src =
        currentTriples (actOut (act a (some t))) := by
  have hr : act a (some t) =
      process_act { a with tfidfs := none, count_matrix := none, doc_freqs := none,
                           num_docs := none, num_tokens := none, cnt := a.cnt + 1 } t := by
    unfold act
    rw [if_pos h]
  have hc : cachesOf (actOut (act a (some t))) = (none, none, none, none, none) := by
    rw [hr, cachesOf_process_act]
    rfl
  have hcm : (actOut (act a (some t))).count_matrix = none := congrArg (fun x => x.1) hc
  have htf : (actOut (act a (some t))).tfidfs = none := congrArg (fun x => x.2.1) hc
  have hdf : (actOut (act a (some t))).doc_freqs = none := congrArg (fun x => x.2.2.1) hc
  have hnd : (actOut (act a (some t))).num_docs = none := congrArg (fun x => x.2.2.2.1) hc
  have hnt : (actOut (act a (some t))).num_tokens = none := congrArg (fun x => x.2.2.2.2) hc
  exact ⟨htf, hcm, hdf, hnd, hnt,
    compute_count_matrix_src _ hcm, compute_tfidf_base_src _ hcm htf⟩

/-- Witness for the amended C2 at a concrete agent with a cached TF-IDF
matrix. -/
theorem cache_invalidation_when_tfidfs_cached_witness :
    (actOut (act c2Agent (some "x"))).tfidfs = none
    ∧ (actOut (act c2Agent (some "x"))).count_matrix = none
    ∧ (actOut (act c2Agent (some "x"))).doc_freqs = none
    ∧ (actOut (act c2Agent (some "x"))).num_docs = none
    ∧ (actOut (act c2Agent (some "x"))).num_tokens = none
    ∧ (compute_count_matrix (actOut (act c2Agent (some "x")))).1.src =
        currentTriples (actOut (act c2Agent (some "x")))
    ∧ (compute_tfidf (actOut (act c2Agent (some "x")))).1.base.src =
        currentTriples (actOut (act c2Agent (some "x"))) :=
  cache_invalidation_when_tfidfs_cached c2Agent "x" rfl

/-- C5: when the fact store insert raises, `process_act` aborts with no
partial index state: the three triple buffers and the local vocabulary
are exactly as before the call, and the store write lock is released on
the failure path.  (Only the shared fact-id counter, drawn before the
insert, has advanced.) -/
theorem ingest_failure_no_partial_state (a : Agent) (fact : String)
    (h : a.store_fails = true) :
    process_act a fact = .error { a with fact_id := a.fact_id + 1, db_lock := false }
    ∧ ∀ a1, process_act a fact = .error a1 →
        a1.freq_token = a.freq_token ∧ a1.freq_fact_id = a.freq_fact_id
        ∧ a1.freq_freq = a.freq_freq ∧ a1.all_tokens = a.all_tokens
        ∧ a1.db_lock = false := by
  have he : process_act a fact =
      .error { a with fact_id := a.fact_id + 1, db_lock := false } := by
    unfold process_act insert_fact_without_id new_fact_id
    rw [if_pos h]
  refine ⟨he, fun a1 h1 => ?_⟩
  rw [he] at h1
  injection h1 with h2
  rw [← h2]
  exact ⟨rfl, rfl, rfl, rfl, rfl⟩

/-- Witness for C5 at a concrete agent whose store raises. -/
theorem ingest_failure_no_partial_state_witness :
    process_act c5Agent "x" =
      .error { c5Agent with fact_id := c5Agent.fact_id + 1, db_lock := false }
    ∧ ∀ a1, process_act c5Agent "x" = .error a1 →
        a1.freq_token = c5Agent.freq_token ∧ a1.freq_fact_id = c5Agent.freq_fact_id
        ∧ a1.freq_freq = c5Agent.freq_freq ∧ a1.all_tokens = c5Agent.all_tokens
        ∧ a1.db_lock = false :=
  ingest_failure_no_partial_state c5Agent "x" rfl

/-- C6: a triple whose local token id has no entry in that worker's
translation table raises the lookup error, any malformed message raises
the wrong-format error, and an error raised during a polling round makes
the coordinator loop stop and surface it rather than continue. -/
theorem merge_protocol_violation_fatal (s : MergeState) (qi : Nat) (lid : Int)
    (fid fr : Nat) :
    ((s.childMaps.getD qi []).lookup lid = none →
        processData s qi (.triple lid fid fr) = .error .keyError)
    ∧ processData s qi .malformed = .error .wrongFormat
    ∧ (∀ fuel s1 e, s.finishedCnt ≠ s.queues.length → processRound s = .failed e s1 →
        process_child_data (fuel + 1) s = .failed e s1) := by
  refine ⟨fun hl => ?_, rfl, fun fuel s1 e hn hr => ?_⟩
  · simp only [processData]
    rw [hl]
  · unfold process_child_data
    rw [if_neg hn, hr]

/-- Witness for C6: a channel whose first message is an untranslated
triple makes the coordinator run fail with the lookup error. -/
theorem merge_protocol_violation_fatal_witness :
    processData c6S 0 (ChildMsg.triple 7 0 1) = .error .keyError
    ∧ processData c6S 0 ChildMsg.malformed = .error .wrongFormat
    ∧ process_child_data 3 c6S = .failed .keyError { c6S with queues := [[]] } := by
  have h := merge_protocol_violation_fatal c6S 0 7 0 1
  exact ⟨h.1 rfl, h.2.1, h.2.2 2 { c6S with queues := [[]] } .keyError (by decide) rfl⟩

/-- C7: a query none of whose tokens survives the vocabulary filter makes
`retrieve` produce an empty result sequence immediately, with no error
and for any `max_results`. -/
theorem empty_query_returns_empty (a : Agent) (q : String) (k : Nat)
    (h : queryTokens a q = []) :
    retrieve a q k = (.ok [], a) := by
  unfold retrieve
  rw [h]
  rfl

/-- Witness for C7: an out-of-vocabulary query on a concrete agent. -/
theorem empty_query_returns_empty_witness :
    queryTokens c7Agent "hello" = []
    ∧ retrieve c7Agent "hello" 100 = (.ok [], c7Agent) :=
  ⟨rfl, empty_query_returns_empty c7Agent "hello" 100 rfl⟩

/-- Counterexample to C9: with channel 0 unfinished and momentarily
empty (a slow worker) while channel 1 holds a buffered message, the
polling round — and the whole coordinator loop — blocks inside the
`Queue.get()` on channel 0 and never drains channel 1's buffered data:
the receive is unbounded blocking, not a bounded attempt. -/
theorem coordinator_blocks_on_slow_worker :
    processRound c9S = .blocked 0 c9S
    ∧ process_child_data 5 c9S = .blocked 0 c9S
    ∧ c9S.finished.getD 1 true = false
    ∧ c9S.queues.getD 1 [] = [ChildMsg.eod] :=
  ⟨rfl, rfl, rfl, rfl⟩

theorem runRound_append_blocked (l1 l2 : List Nat) (s : MergeState) (j : Nat)
    (h1 : ∀ i ∈ l1, s.finished.getD i true = true)
    (hjf : s.finished.getD j true = false)
    (hje : s.queues.getD j [] = []) :
    runRound s (l1 ++ j :: l2) = .blocked j s := by
  induction l1 with
  | nil =>
    rw [List.nil_append]
    unfold runRound processDataStep
    rw [hjf, hje]
    rfl
  | cons i rest ih =>
    rw [List.cons_append]
    unfold runRound
    have hstep : processDataStep s i = .done s := by
      unfold processDataStep
      rw [h1 i (List.mem_cons_self i rest)]
      rfl
    rw [hstep]
    exact ih (fun i2 hi2 => h1 i2 (List.mem_cons_of_mem _ hi2))

/-- C9 amended: the coordinator polls the channels in index order, one
unconditionally blocking receive per unfinished channel per round; when
it reaches an unfinished channel with no available message (all earlier
channels being finished) it blocks there indefinitely, leaving every
other channel's buffered data undrained, instead of making a bounded
attempt and cycling on. -/
theorem coordinator_round_blocking_behavior (s : MergeState) (j : Nat)
    (hj : j < s.queues.length)
    (hfin : ∀ i < j, s.finished.getD i true = true)
    (hjf : s.finished.getD j true = false)
    (hje : s.queues.getD j [] = []) :
    processRound s = .blocked j s := by
  unfold processRound
  obtain ⟨k, hk⟩ : ∃ k, s.queues.length = j + (k + 1) := ⟨s.queues.length - j - 1, by omega⟩
  have hsplit : List.range s.queues.length =
      List.range j ++ j :: List.range' (j + 1) k := by
    rw [hk, List.range_eq_range', List.range_eq_range']
    rw [Nat.add_comm j (k + 1)]
    rw [← List.range'_append 0 j (k + 1) 1]
    simp only [Nat.zero_add, Nat.one_mul]
    rw [List.range'_succ]
  rw [hsplit]
  exact runRound_append_blocked _ _ s j
    (fun i hi => hfin i (List.mem_range.mp hi)) hjf hje

/-- Witness for the amended C9: the single unfinished channel is empty,
so the round blocks on it. -/
theorem coordinator_round_blocking_behavior_witness :
    processRound c9S2 = .blocked 1 c9S2 :=
  coordinator_round_blocking_behavior c9S2 1 (by decide)
    (by decide) rfl rfl

/-- Counterexample to C4's absence clause: in the matrix `c4M` token 1
occurs in zero facts (its single cell is 0), yet the Document-Frequency
Vector computed by `get_doc_freqs` is dense — it has an entry for token
1, with value 0, rather than omitting the token entirely. -/
theorem df_vector_dense_zero_row :
    c4M.entry 1 0 = 0
    ∧ (docFreqsOf c4M).get? 1 = some 0
    ∧ (docFreqsOf c4M).length = 2 :=
  ⟨by decide, by decide, by decide⟩

theorem clampNeg_eq_max (x : ℚ) : clampNeg x = max 0 x := by
  unfold clampNeg
  rcases lt_or_le x 0 with h | h
  · rw [if_pos h, max_eq_left h.le]
  · rw [if_neg (not_lt.mpr h), max_eq_right h]

/-- C4 amended: the idf used for scoring is
`max(0, log((F - df + 0.5) / (df + 0.5)))` (negative raw values clamped
to zero, with `lg` standing for `np.log`, assumed nonpositive on `(0,1]`);
a token occurring in every fact gets idf exactly 0 and no token ever gets
a negative idf.  The Document-Frequency Vector is dense with one entry
per token row (the count of facts where the token's cell is positive):
a token occurring in zero facts is present with entry 0, not absent. -/
theorem idf_formula_clamped (lg : ℚ → ℚ)
    (hlg : ∀ x : ℚ, 0 < x → x ≤ 1 → lg x ≤ 0) (F df : Nat) (m : CMat) (t : Nat)
    (ht : t < m.T) :
    idfOf lg F df = max 0 (lg (((F : ℚ) - (df : ℚ) + 1/2) / ((df : ℚ) + 1/2)))
    ∧ idfOf lg F F = 0
    ∧ 0 ≤ idfOf lg F df
    ∧ (docFreqsOf m).length = m.T
    ∧ ((∀ f < m.F, m.entry (t : Int) f = 0) → (docFreqsOf m).get? t = some 0) := by
  refine ⟨?_, ?_, ?_, ?_, ?_⟩
  · unfold idfOf
    rw [clampNeg_eq_max]
  · unfold idfOf
    have harg : ((F : ℚ) - (F : ℚ) + 1/2) / ((F : ℚ) + 1/2) =
        (1/2 : ℚ) / ((F : ℚ) + 1/2) := by ring_nf
    rw [harg]
    have hden : (0 : ℚ) < (F : ℚ) + 1/2 := by positivity
    have hpos : (0 : ℚ) < (1/2 : ℚ) / ((F : ℚ) + 1/2) := by positivity
    have hle1 : (1/2 : ℚ) / ((F : ℚ) + 1/2) ≤ 1 := by
      rw [div_le_one hden]
      have : (0 : ℚ) ≤ (F : ℚ) := Nat.cast_nonneg F
      linarith
    have hneg := hlg _ hpos hle1
    unfold clampNeg
    rcases lt_or_le (lg ((1/2 : ℚ) / ((F : ℚ) + 1/2))) 0 with h | h
    · rw [if_pos h]
    · rw [if_neg (not_lt.mpr h)]
      linarith
  · unfold idfOf clampNeg
    rcases lt_or_le (lg (((F : ℚ) - (df : ℚ) + 1/2) / ((df : ℚ) + 1/2))) 0 with h | h
    · rw [if_pos h]
    · rw [if_neg (not_lt.mpr h)]
      exact h
  · simp [docFreqsOf]
  · intro hz
    unfold docFreqsOf
    rw [List.get?_map, List.get?_range ht]
    simp
    exact hz

/-- Witness for the amended C4 at a concrete logarithm stand-in,
`F = df = 2`, and the concrete matrix with a zero token row. -/
theorem idf_formula_clamped_witness :
    idfOf (fun x => x - 1) 2 2 = 0
    ∧ 0 ≤ idfOf (fun x => x - 1) 2 1
    ∧ (docFreqsOf c4M).get? 1 = some 0 := by
  have h1 := idf_formula_clamped (fun x => x - 1)
    (fun x _ hx1 => by simpa using sub_nonpos.mpr hx1) 2 2 c4M 1 (by decide)
  have h2 := idf_formula_clamped (fun x => x - 1)
    (fun x _ hx1 => by simpa using sub_nonpos.mpr hx1) 2 1 c4M 1 (by decide)
  exact ⟨h1.2.1, h2.2.2.1, h1.2.2.2.2 (by decide)⟩

theorem nzScore_iff (p : Nat × ℚ) : nzScore p = true ↔ p.2 ≠ 0 := by
  simp [nzScore]

/-- C3: the top-k selection of `retrieve` applied to the stored scored
cells `res` (one per fact with stored overlap, scores nonnegative as
products of nonnegative tf and idf weights) yields at most
`max_results` cells drawn from `res`, sorted descending by score; when
the number of nonzero-scoring cells is at most `max_results` every
nonzero-scoring cell is yielded; otherwise exactly `max_results` cells
are yielded and every excluded cell scores no higher than any yielded
one. -/
theorem topk_selection_spec (res : List (Nat × ℚ)) (k : Nat)
    (hpos : ∀ p ∈ res, 0 ≤ p.2) :
    (retrieveSelect res k).length ≤ k
    ∧ (retrieveSelect res k).Pairwise scoreGe
    ∧ (∀ p ∈ retrieveSelect res k, p ∈ res)
    ∧ (res.countP nzScore ≤ k → ∀ p ∈ res, p.2 ≠ 0 → p ∈ retrieveSelect res k)
    ∧ (k < res.countP nzScore →
        (retrieveSelect res k).length = k
        ∧ ∀ p ∈ res, p ∉ retrieveSelect res k →
            ∀ q ∈ retrieveSelect res k, p.2 ≤ q.2) := by
  have hperm : List.Perm (sortDescQ res) res := List.perm_insertionSort scoreGe res
  have hsort : (sortDescQ res).Pairwise scoreGe := List.sorted_insertionSort scoreGe res
  by_cases hlen : res.length ≤ k
  · rw [retrieveSelect, if_pos hlen]
    refine ⟨?_, hsort, ?_, ?_, ?_⟩
    · rw [hperm.length_eq]
      exact hlen
    · exact fun p hp => hperm.subset hp
    · exact fun _ p hp _ => hperm.mem_iff.mpr hp
    · intro hcnt
      have := List.countP_le_length (p := nzScore) (l := res)
      omega
  · rw [retrieveSelect, if_neg hlen]
    have hkl : k ≤ (sortDescQ res).length := by
      rw [hperm.length_eq]
      omega
    have hlentake : ((sortDescQ res).take k).length = k := by
      rw [List.length_take]
      omega
    have hsplit : (sortDescQ res).take k ++ (sortDescQ res).drop k = sortDescQ res :=
      List.take_append_drop k (sortDescQ res)
    have hcross : ∀ a ∈ (sortDescQ res).take k, ∀ b ∈ (sortDescQ res).drop k, scoreGe a b := by
      have hpw : ((sortDescQ res).take k ++ (sortDescQ res).drop k).Pairwise scoreGe := by
        rw [hsplit]
        exact hsort
      exact (List.pairwise_append.mp hpw).2.2
    have hsubres : ∀ p ∈ (sortDescQ res).take k, p ∈ res :=
      fun p hp => hperm.subset ((List.take_sublist k (sortDescQ res)).subset hp)
    refine ⟨le_of_eq hlentake, hsort.sublist (List.take_sublist k (sortDescQ res)), hsubres,
      ?_, ?_⟩
    · intro hcnt p hp hne
      by_contra hnot
      have hpl : p ∈ (sortDescQ res).take k ++ (sortDescQ res).drop k := by
        rw [hsplit]
        exact hperm.mem_iff.mpr hp
      have hpdrop : p ∈ (sortDescQ res).drop k := by
        rcases List.mem_append.mp hpl with h | h
        · exact absurd h hnot
        · exact h
      have hppos : 0 < p.2 := lt_of_le_of_ne (hpos p hp) (Ne.symm hne)
      have htakeall : ∀ a ∈ (sortDescQ res).take k, nzScore a = true := by
        intro a ha
        have h1 : p.2 ≤ a.2 := hcross a ha p hpdrop
        have h2 : 0 < a.2 := lt_of_lt_of_le hppos h1
        exact (nzScore_iff a).mpr (ne_of_gt h2)
      have hcnttake : ((sortDescQ res).take k).countP nzScore = k := by
        rw [List.countP_eq_length.mpr htakeall]
        exact hlentake
      have hcntdrop : 0 < ((sortDescQ res).drop k).countP nzScore :=
        List.countP_pos.mpr ⟨p, hpdrop, (nzScore_iff p).mpr hne⟩
      have hcntl : (sortDescQ res).countP nzScore = res.countP nzScore :=
        hperm.countP_eq nzScore
      have hcntsplit : ((sortDescQ res).take k).countP nzScore
          + ((sortDescQ res).drop k).countP nzScore = (sortDescQ res).countP nzScore := by
        rw [← List.countP_append, hsplit]
      omega
    · intro hcnt
      refine ⟨hlentake, fun p hp hnot q hq => ?_⟩
      have hpl : p ∈ (sortDescQ res).take k ++ (sortDescQ res).drop k := by
        rw [hsplit]
        exact hperm.mem_iff.mpr hp
      have hpdrop : p ∈ (sortDescQ res).drop k := by
        rcases List.mem_append.mp hpl with h | h
        · exact absurd h hnot
        · exact h
      exact hcross q hq p hpdrop

/-- Witness for C3 at three concrete scored cells and `max_results = 2`. -/
theorem topk_selection_spec_witness :
    (retrieveSelect [(0, (3 : ℚ)), (1, 1), (2, 2)] 2).length ≤ 2
    ∧ (retrieveSelect [(0, (3 : ℚ)), (1, 1), (2, 2)] 2).length = 2
    ∧ ∀ p ∈ ([(0, (3 : ℚ)), (1, 1), (2, 2)] : List (Nat × ℚ)),
        p ∉ retrieveSelect [(0, (3 : ℚ)), (1, 1), (2, 2)] 2 →
          ∀ q ∈ retrieveSelect [(0, (3 : ℚ)), (1, 1), (2, 2)] 2, p.2 ≤ q.2 := by
  have h := topk_selection_spec [(0, (3 : ℚ)), (1, 1), (2, 2)] 2 (by decide)
  have h5 := h.2.2.2.2 (by decide)
  exact ⟨h.1, h5.1, h5.2⟩

end IRRetrieve
